import Mathlib

/-!
Shallow embedding of the bad-chess core (src/board.rs, src/moves.rs,
src/game.rs, src/move_input.rs, src/zobrist.rs).

Conventions of the embedding:
* Rust `usize`/`i32` coordinates are modelled as `Int`; every board read in
  the translated functions is guarded by the same bounds tests as the source,
  so the mathematical subtraction on `Int` agrees with the source wherever
  the source does not panic.
* The 8x8 board array is modelled as a total function `Int → Int → Square`;
  in-place writes become functional updates (`Board.set`), applied in the
  same order as the source's assignments.
* `Vec` becomes `List` with pushes appended at the tail, preserving order.
* Bounded `while` loops over rays become structural recursion on a fuel of 8,
  which strictly dominates the at most 7 in-bounds steps a ray can take.
* The `u32` half-move counter is modelled as `Nat`: no scenario considered
  here approaches `2^32`, where the first wraparound difference would occur.
-/

namespace BadChess

/-- Player side (board.rs `Side`). -/
inductive Side where
  | White
  | Black
deriving DecidableEq

/-- board.rs `Side::get_opposite`. -/
def Side.getOpposite : Side → Side
  | .White => .Black
  | .Black => .White

/-- board.rs `PieceType`. -/
inductive PieceType where
  | Pawn
  | Knight
  | Bishop
  | Rook
  | Queen
  | King
deriving DecidableEq

/-- board.rs `Piece`. -/
structure Piece where
  side : Side
  typ : PieceType
deriving DecidableEq

/-- board.rs `Square`. -/
inductive Square where
  | Full (piece : Piece)
  | Empty
deriving DecidableEq

/-- board.rs `Point` (row, column). -/
structure Point where
  r : Int
  c : Int
deriving DecidableEq

/-- board.rs `Move`: origin and destination squares. `from` is a Lean
keyword, so the field is named `from_`. -/
structure Move where
  from_ : Point
  to_ : Point
deriving DecidableEq

/-- board.rs `SIZE`. -/
def SIZE : Int := 8

/-- The 8x8 board `[[Square; SIZE]; SIZE]`, as a total function on
(row, column); only indices in [0, 8) are ever read by the embedded code. -/
def Board : Type := Int → Int → Square

/-- Functional update modelling `board[r][c] = s`. -/
def Board.set (b : Board) (r c : Int) (s : Square) : Board :=
  fun r' c' => if r' = r ∧ c' = c then s else b r' c'

/-- board.rs `KingPositions`. -/
structure KingPositions where
  white : Point
  black : Point

/-- board.rs `KingPositions::get_pos`. -/
def KingPositions.getPos (k : KingPositions) : Side → Point
  | .White => k.white
  | .Black => k.black

/-- board.rs `CastleRights` (a-file right, h-file right). -/
structure CastleRights where
  white : Bool × Bool
  black : Bool × Bool

/-- board.rs `CastleDirection`. -/
inductive CastleDirection where
  | A
  | H
deriving DecidableEq

/-- board.rs `CastleRights::has_right`. -/
def CastleRights.hasRight (cr : CastleRights) (side : Side) (dir : CastleDirection) : Bool :=
  match side with
  | .White => match dir with
    | .A => cr.white.1
    | .H => cr.white.2
  | .Black => match dir with
    | .A => cr.black.1
    | .H => cr.black.2

/-- board.rs `Positions`. -/
structure Positions where
  WHITE_KING : Point
  BLACK_KING : Point
  WHITE_ROOKS : Point × Point
  BLACK_ROOKS : Point × Point

/-- board.rs `CastledPositions`. -/
structure CastledPositions where
  WHITE_KING : Point × Point
  BLACK_KING : Point × Point
  WHITE_ROOKS : Point × Point
  BLACK_ROOKS : Point × Point

/-- board.rs `INITIAL_POSITIONS`. -/
def INITIAL_POSITIONS : Positions where
  WHITE_KING := ⟨0, 4⟩
  BLACK_KING := ⟨7, 4⟩
  WHITE_ROOKS := (⟨0, 0⟩, ⟨0, 7⟩)
  BLACK_ROOKS := (⟨7, 0⟩, ⟨7, 7⟩)

/-- board.rs `CASTLED_POSITIONS`. -/
def CASTLED_POSITIONS : CastledPositions where
  WHITE_KING := (⟨0, 2⟩, ⟨0, 6⟩)
  BLACK_KING := (⟨7, 2⟩, ⟨7, 6⟩)
  WHITE_ROOKS := (⟨0, 3⟩, ⟨0, 5⟩)
  BLACK_ROOKS := (⟨7, 3⟩, ⟨7, 5⟩)

/-- board.rs `CASTLE_COLUMNS`: `CastleColumns(2..5, 4..7)`; the two Rust
ranges iterate exactly over the listed columns. -/
def CASTLE_COLUMNS : List Int × List Int := ([2, 3, 4], [4, 5, 6])

/-- moves.rs `KNIGHT_MOVES`. -/
def KNIGHT_MOVES : List (Int × Int) :=
  [(2, 1), (-2, 1), (2, -1), (-2, -1), (1, 2), (-1, 2), (1, -2), (-1, -2)]

/-- moves.rs `BISHOP_DIRECTIONS`. -/
def BISHOP_DIRECTIONS : List (Int × Int) := [(1, 1), (-1, 1), (1, -1), (-1, -1)]

/-- moves.rs `ROOK_DIRECTIONS`. -/
def ROOK_DIRECTIONS : List (Int × Int) := [(1, 0), (-1, 0), (0, 1), (0, -1)]

/-- moves.rs `KING_MOVES`. -/
def KING_MOVES : List (Int × Int) :=
  [(1, 0), (-1, 0), (0, 1), (0, -1), (1, 1), (-1, 1), (1, -1), (-1, -1)]

/-- moves.rs `get_pawn_moves`, including the en-passant block verbatim:
note the `else if` branches of the en-passant block run for either side
when the first conjunct fails, exactly as in the source. -/
def getPawnMoves (side : Side) (row col : Int) (board : Board)
    (pawn_double_moved : Option Point) : List Point :=
  let forward : List Point :=
    if side = .White then
      if board (row + 1) col = .Empty then
        ⟨row + 1, col⟩ ::
          (if row = 1 ∧ board (row + 2) col = .Empty then [⟨row + 2, col⟩] else [])
      else []
    else
      if board (row - 1) col = .Empty then
        ⟨row - 1, col⟩ ::
          (if row = SIZE - 2 ∧ board (row - 2) col = .Empty then [⟨row - 2, col⟩] else [])
      else []
  let capLeft : List Point :=
    if col > 0 then
      if side = .White then
        match board (row + 1) (col - 1) with
        | .Full piece => if piece.side = .Black then [⟨row + 1, col - 1⟩] else []
        | .Empty => []
      else
        match board (row - 1) (col - 1) with
        | .Full piece => if piece.side = .White then [⟨row - 1, col - 1⟩] else []
        | .Empty => []
    else []
  let capRight : List Point :=
    if col < SIZE - 1 then
      if side = .White then
        match board (row + 1) (col + 1) with
        | .Full piece => if piece.side = .Black then [⟨row + 1, col + 1⟩] else []
        | .Empty => []
      else
        match board (row - 1) (col + 1) with
        | .Full piece => if piece.side = .White then [⟨row - 1, col + 1⟩] else []
        | .Empty => []
    else []
  let enPassant : List Point :=
    match pawn_double_moved with
    | some point =>
      if row = point.r then
        if col = point.c + 1 then
          if side = .White ∧ board (row + 1) (col - 1) = .Empty then
            [⟨row + 1, col - 1⟩]
          else if board (row - 1) (col - 1) = .Empty then
            [⟨row - 1, col - 1⟩]
          else []
        else if col + 1 = point.c then
          if side = .White ∧ board (row + 1) (col + 1) = .Empty then
            [⟨row + 1, col + 1⟩]
          else if board (row + 1) (col - 1) = .Empty then
            [⟨row + 1, col - 1⟩]
          else []
        else []
      else []
    | none => []
  forward ++ capLeft ++ capRight ++ enPassant

/-- moves.rs `get_knight_moves`. -/
def getKnightMoves (side : Side) (row col : Int) (board : Board) : List Point :=
  KNIGHT_MOVES.foldl (fun moves dir =>
    let sq : Int × Int := (row + dir.1, col + dir.2)
    if 0 ≤ sq.1 ∧ sq.1 < SIZE ∧ 0 ≤ sq.2 ∧ sq.2 < SIZE then
      match board sq.1 sq.2 with
      | .Full piece => if piece.side ≠ side then moves ++ [⟨sq.1, sq.2⟩] else moves
      | .Empty => moves ++ [⟨sq.1, sq.2⟩]
    else moves) []

/-- One sliding-ray `while` loop of moves.rs (`get_bishop_moves`,
`get_rook_moves`, `get_queen_moves` share this shape); the fuel of 8
dominates the at most 7 in-bounds steps of any ray. -/
def rayMoves (side : Side) (board : Board) (dir : Int × Int) :
    Nat → Int × Int → List Point
  | 0, _ => []
  | fuel + 1, sq =>
    if 0 ≤ sq.1 ∧ sq.1 < SIZE ∧ 0 ≤ sq.2 ∧ sq.2 < SIZE then
      match board sq.1 sq.2 with
      | .Full piece => if piece.side ≠ side then [⟨sq.1, sq.2⟩] else []
      | .Empty =>
        ⟨sq.1, sq.2⟩ :: rayMoves side board dir fuel (sq.1 + dir.1, sq.2 + dir.2)
    else []

/-- moves.rs `get_bishop_moves`. -/
def getBishopMoves (side : Side) (row col : Int) (board : Board) : List Point :=
  BISHOP_DIRECTIONS.foldl (fun moves dir =>
    moves ++ rayMoves side board dir 8 (row + dir.1, col + dir.2)) []

/-- moves.rs `get_rook_moves`. -/
def getRookMoves (side : Side) (row col : Int) (board : Board) : List Point :=
  ROOK_DIRECTIONS.foldl (fun moves dir =>
    moves ++ rayMoves side board dir 8 (row + dir.1, col + dir.2)) []

/-- moves.rs `get_queen_moves` (bishop directions chained before rook
directions, as in the source). -/
def getQueenMoves (side : Side) (row col : Int) (board : Board) : List Point :=
  (BISHOP_DIRECTIONS ++ ROOK_DIRECTIONS).foldl (fun moves dir =>
    moves ++ rayMoves side board dir 8 (row + dir.1, col + dir.2)) []

/-- moves.rs `get_king_moves`. -/
def getKingMoves (side : Side) (row col : Int) (board : Board) : List Point :=
  KING_MOVES.foldl (fun moves dir =>
    let sq : Int × Int := (row + dir.1, col + dir.2)
    if 0 ≤ sq.1 ∧ sq.1 < SIZE ∧ 0 ≤ sq.2 ∧ sq.2 < SIZE then
      match board sq.1 sq.2 with
      | .Full piece => if piece.side ≠ side then moves ++ [⟨sq.1, sq.2⟩] else moves
      | .Empty => moves ++ [⟨sq.1, sq.2⟩]
    else moves) []

/-- One slider-attack `while` loop of moves.rs `in_check`. The bounds test
is translated verbatim: the source writes `square.1 > 0` (strict) for the
column where it writes `square.0 >= 0` for the row, so the scan never
inspects column 0 and aborts any ray that reaches it. -/
def rayCheck (side : Side) (board : Board) (hit : Piece → Bool) (dir : Int × Int) :
    Nat → Int × Int → Bool
  | 0, _ => false
  | fuel + 1, sq =>
    if 0 ≤ sq.1 ∧ sq.1 < SIZE ∧ 0 < sq.2 ∧ sq.2 < SIZE then
      match board sq.1 sq.2 with
      | .Full piece => hit piece
      | .Empty => rayCheck side board hit dir fuel (sq.1 + dir.1, sq.2 + dir.2)
    else false

/-- moves.rs `in_check`: rook/queen rays, bishop/queen rays, knight
offsets, then pawn attack squares, with the source's early returns
becoming boolean disjunction in the same order. -/
def inCheck (side : Side) (pos : Point) (board : Board) : Bool :=
  let rookHit :=
    ROOK_DIRECTIONS.any (fun dir =>
      rayCheck side board
        (fun piece => decide ((piece.typ = .Rook ∨ piece.typ = .Queen) ∧ piece.side ≠ side))
        dir 8 (pos.r + dir.1, pos.c + dir.2))
  let bishopHit :=
    BISHOP_DIRECTIONS.any (fun dir =>
      rayCheck side board
        (fun piece => decide ((piece.typ = .Bishop ∨ piece.typ = .Queen) ∧ piece.side ≠ side))
        dir 8 (pos.r + dir.1, pos.c + dir.2))
  let knightHit :=
    KNIGHT_MOVES.any (fun mov =>
      let row := pos.r + mov.1
      let col := pos.c + mov.2
      if 0 ≤ row ∧ row < SIZE ∧ 0 ≤ col ∧ col < SIZE then
        match board row col with
        | .Full piece => decide (piece.typ = .Knight ∧ piece.side ≠ side)
        | .Empty => false
      else false)
  let pawnHit :=
    if side = .White ∧ pos.r < SIZE - 1 then
      (if pos.c > 0 then
        match board (pos.r + 1) (pos.c - 1) with
        | .Full piece => decide (piece.typ = .Pawn ∧ piece.side = .Black)
        | .Empty => false
      else false) ||
      (if pos.c < SIZE - 1 then
        match board (pos.r + 1) (pos.c + 1) with
        | .Full piece => decide (piece.typ = .Pawn ∧ piece.side = .Black)
        | .Empty => false
      else false)
    else if pos.r > 0 then
      (if pos.c > 0 then
        match board (pos.r - 1) (pos.c - 1) with
        | .Full piece => decide (piece.typ = .Pawn ∧ piece.side = .White)
        | .Empty => false
      else false) ||
      (if pos.c < SIZE - 1 then
        match board (pos.r - 1) (pos.c + 1) with
        | .Full piece => decide (piece.typ = .Pawn ∧ piece.side = .White)
        | .Empty => false
      else false)
    else false
  rookHit || bishopHit || knightHit || pawnHit

/-- The body of the closure in moves.rs `filter_legal_moves`, applied to one
candidate: make the move on the board, query `in_check`, unmake the move.
Returns the verdict together with the board as left behind by the probe. -/
def probeStep (side : Side) (kingPos : Point) (board : Board) (mov : Move) :
    Bool × Board :=
  let replaced := board mov.to_.r mov.to_.c
  let made :=
    (board.set mov.to_.r mov.to_.c (board mov.from_.r mov.from_.c)).set
      mov.from_.r mov.from_.c .Empty
  let legal :=
    ! inCheck side (if mov.from_ = kingPos then mov.to_ else kingPos) made
  let unmade :=
    (made.set mov.from_.r mov.from_.c (made mov.to_.r mov.to_.c)).set
      mov.to_.r mov.to_.c replaced
  (legal, unmade)

/-- Iteration of moves.rs `filter_legal_moves` over the candidate list,
threading the shared mutable board through the probes. -/
def filterLegalMovesAux (side : Side) (kingPos : Point) :
    List Move → List Move × Board → List Move × Board
  | [], acc => acc
  | mov :: rest, acc =>
    let res := probeStep side kingPos acc.2 mov
    filterLegalMovesAux side kingPos rest
      (if res.1 then acc.1 ++ [mov] else acc.1, res.2)

/-- moves.rs `filter_legal_moves`, fully consumed (as both call sites do):
returns the retained moves and the board after all probes. -/
def filterLegalMoves (side : Side) (possible : List Move) (board : Board)
    (kingPos : Point) : List Move × Board :=
  filterLegalMovesAux side kingPos possible ([], board)

/-- moves.rs `can_castle`. -/
def canCastle (side : Side) (dir : CastleDirection) (board : Board)
    (kingPos : Point) : Bool :=
  let cols := match dir with
    | .A => CASTLE_COLUMNS.1
    | .H => CASTLE_COLUMNS.2
  cols.all (fun col =>
    (if col ≠ kingPos.c then
      match board kingPos.r col with
      | .Full _ => false
      | .Empty => true
    else true) && ! inCheck side ⟨kingPos.r, col⟩ board)

/-- board.rs `Game` state. The `zobrist_table` field is omitted: none of
the operations embedded here read or write it (`player_move` and
`get_game_result` never touch it). -/
structure Game where
  turn : Side
  board : Board
  king_positions : KingPositions
  castle_rights : CastleRights
  pawn_double_moved : Option Point
  last_active_ply : Nat

/-- board.rs `Square::full`. -/
def Square.full (side : Side) (typ : PieceType) : Square :=
  .Full ⟨side, typ⟩

/-- One back-rank row of board.rs `Game::new`, spelled per column. -/
def backRank (side : Side) (c : Int) : Square :=
  if c = 0 ∨ c = 7 then Square.full side .Rook
  else if c = 1 ∨ c = 6 then Square.full side .Knight
  else if c = 2 ∨ c = 5 then Square.full side .Bishop
  else if c = 3 then Square.full side .Queen
  else if c = 4 then Square.full side .King
  else .Empty

/-- The starting board array of board.rs `Game::new`. -/
def initialBoard : Board := fun r c =>
  if 0 ≤ c ∧ c < SIZE then
    if r = 0 then backRank .White c
    else if r = 1 then Square.full .White .Pawn
    else if r = 6 then Square.full .Black .Pawn
    else if r = 7 then backRank .Black c
    else .Empty
  else .Empty

/-- board.rs `Game::new` (the Zobrist table it also builds is embedded
separately as `zobristKey`). -/
def Game.new : Game where
  turn := .White
  board := initialBoard
  king_positions := ⟨INITIAL_POSITIONS.WHITE_KING, INITIAL_POSITIONS.BLACK_KING⟩
  castle_rights := ⟨(true, true), (true, true)⟩
  pawn_double_moved := none
  last_active_ply := 0

/-- move_input.rs `File`. -/
inductive File where
  | Row (r : Int)
  | Column (c : Int)
  | Any
deriving DecidableEq

/-- move_input.rs `MoveType`. -/
inductive MoveType where
  | Move
  | Capture
  | Promotion (piece : PieceType)
  | CapturePromotion (piece : PieceType)
  | Castle (dir : CastleDirection)
deriving DecidableEq

/-- move_input.rs `PlayerMove` (`to` is a Lean keyword, hence `to_`). -/
structure PlayerMove where
  piece : PieceType
  from_ : File
  to_ : Point
  typ : MoveType
deriving DecidableEq

/-- move_input.rs `validate_move`. The diagnostic strings drop the
quotation marks around the echoed input but keep its structure. -/
def validateMove (input : String) (move_data : PlayerMove) (g : Game) :
    Except String Unit :=
  match move_data.typ with
  | .Move =>
    if g.board move_data.to_.r move_data.to_.c ≠ .Empty then
      .error (input ++ " is not a valid move, please try again")
    else if move_data.piece = .Pawn ∧ (move_data.to_.r = 0 ∨ move_data.to_.r = SIZE - 1) then
      .error (input ++ " must be a pawn promotion, please try again")
    else .ok ()
  | .Capture =>
    if g.board move_data.to_.r move_data.to_.c = .Empty then
      .error (input ++ " is not a valid capture, please try again")
    else .ok ()
  | .Promotion _ =>
    if (g.turn = .White ∧ move_data.to_.r < SIZE - 1) ∨
       (g.turn = .Black ∧ move_data.to_.r > 0) then
      .error (input ++ " is not a valid pawn promotion, please try again")
    else .ok ()
  | .CapturePromotion _ =>
    if g.board move_data.to_.r move_data.to_.c = .Empty then
      .error (input ++ " is not a valid capture, please try again")
    else if (g.turn = .White ∧ move_data.to_.r < SIZE - 1) ∨
       (g.turn = .Black ∧ move_data.to_.r > 0) then
      .error (input ++ " is not a valid pawn promotion, please try again")
    else .ok ()
  | .Castle dir =>
    if ¬ g.castle_rights.hasRight g.turn dir then
      .error (input ++ " is not a valid castle move, please try again")
    else if ¬ canCastle g.turn dir g.board (g.king_positions.getPos g.turn) then
      .error (input ++ " castles through pieces or check, please try again")
    else .ok ()

/-- game.rs `get_moves`. -/
def getMoves (piece : Piece) (row col : Int) (g : Game) : List Point :=
  match piece.typ with
  | .Pawn => getPawnMoves piece.side row col g.board g.pawn_double_moved
  | .Knight => getKnightMoves piece.side row col g.board
  | .Bishop => getBishopMoves piece.side row col g.board
  | .Rook => getRookMoves piece.side row col g.board
  | .Queen => getQueenMoves piece.side row col g.board
  | .King => getKingMoves piece.side row col g.board

/-- The index sequence of `for r in 0..SIZE` in game.rs. -/
def rcRange : List Int := [0, 1, 2, 3, 4, 5, 6, 7]

/-- game.rs `get_possible_moves`. -/
def getPossibleMoves (move_data : PlayerMove) (g : Game) : List Move :=
  rcRange.foldl (fun possible r =>
    rcRange.foldl (fun possible c =>
      let skip : Bool :=
        match move_data.from_ with
        | .Row row => decide (row ≠ r)
        | .Column col => decide (col ≠ c)
        | .Any => false
      if skip then possible
      else
        match g.board r c with
        | .Full piece =>
          if piece.side = g.turn ∧ piece.typ = move_data.piece then
            possible ++
              ((getMoves piece r c g).filter (fun mov => mov = move_data.to_)).map
                (fun mov => Move.mk ⟨r, c⟩ mov)
          else possible
        | .Empty => possible) possible) []

/-- The castle branch of game.rs `Game::player_move` (lines 51-108): board
writes in source order, cached king position and both rights updated,
turn flipped; the function then returns early, so the half-move-clock
update further down is never reached on this path. -/
def castleCommit (dir : CastleDirection) (g : Game) : Game :=
  let king_pos := g.king_positions.getPos g.turn
  let rkk : Point × Point × Point :=
    match g.turn with
    | .White =>
      match dir with
      | .A => (INITIAL_POSITIONS.WHITE_ROOKS.1, CASTLED_POSITIONS.WHITE_KING.1,
               CASTLED_POSITIONS.WHITE_ROOKS.1)
      | .H => (INITIAL_POSITIONS.WHITE_ROOKS.2, CASTLED_POSITIONS.WHITE_KING.2,
               CASTLED_POSITIONS.WHITE_ROOKS.2)
    | .Black =>
      match dir with
      | .A => (INITIAL_POSITIONS.BLACK_ROOKS.1, CASTLED_POSITIONS.BLACK_KING.1,
               CASTLED_POSITIONS.BLACK_ROOKS.1)
      | .H => (INITIAL_POSITIONS.BLACK_ROOKS.2, CASTLED_POSITIONS.BLACK_KING.2,
               CASTLED_POSITIONS.BLACK_ROOKS.2)
  let rook_pos := rkk.1
  let king_mov := rkk.2.1
  let rook_mov := rkk.2.2
  let b1 := g.board.set king_mov.r king_mov.c (g.board king_pos.r king_pos.c)
  let b2 := b1.set rook_mov.r rook_mov.c (b1 rook_pos.r rook_pos.c)
  let b3 := b2.set king_pos.r king_pos.c .Empty
  let b4 := b3.set rook_pos.r rook_pos.c .Empty
  let kp := match g.turn with
    | .White => KingPositions.mk king_mov g.king_positions.black
    | .Black => KingPositions.mk g.king_positions.white king_mov
  let cr := match g.turn with
    | .White => CastleRights.mk (false, false) g.castle_rights.black
    | .Black => CastleRights.mk g.castle_rights.white (false, false)
  { g with
    board := b4
    king_positions := kp
    castle_rights := cr
    turn := g.turn.getOpposite }

/-- The non-castle remainder of game.rs `Game::player_move` (lines
110-190): candidate generation, legality filtering (which leaves its probe
board in `self.board`), the single-move commit, castle-right and
half-move-clock updates, and the turn flip. The `Castle` arm of the clock
match is copied from the source even though the early return above makes
it unreachable. -/
def normalCommit (input : String) (move_data : PlayerMove) (g : Game) :
    Option String × Game :=
  let possible := getPossibleMoves move_data g
  if possible = [] then
    (some (input ++ " is not a valid move, please try again"), g)
  else
    let fl := filterLegalMoves g.turn possible g.board (g.king_positions.getPos g.turn)
    let g := { g with board := fl.2 }
    match fl.1 with
    | [] => (some (input ++ " leaves the king in check, please try again"), g)
    | _ :: _ :: _ => (some (input ++ " is an ambiguous move, please try again"), g)
    | [mov] =>
      let b1 :=
        match move_data.typ with
        | .Promotion piece => g.board.set mov.to_.r mov.to_.c (Square.full g.turn piece)
        | .CapturePromotion piece => g.board.set mov.to_.r mov.to_.c (Square.full g.turn piece)
        | _ => g.board.set mov.to_.r mov.to_.c (g.board mov.from_.r mov.from_.c)
      let b2 := b1.set mov.from_.r mov.from_.c .Empty
      let kp :=
        if move_data.piece = .King then
          match g.turn with
          | .White => KingPositions.mk mov.to_ g.king_positions.black
          | .Black => KingPositions.mk g.king_positions.white mov.to_
        else g.king_positions
      let cr :=
        if move_data.piece = .King then
          match g.turn with
          | .White => CastleRights.mk (false, false) g.castle_rights.black
          | .Black => CastleRights.mk g.castle_rights.white (false, false)
        else if move_data.piece = .Rook then
          match g.turn with
          | .White =>
            if mov.from_ = INITIAL_POSITIONS.WHITE_ROOKS.1 then
              CastleRights.mk (false, g.castle_rights.white.2) g.castle_rights.black
            else if mov.from_ = INITIAL_POSITIONS.WHITE_ROOKS.2 then
              CastleRights.mk (g.castle_rights.white.1, false) g.castle_rights.black
            else g.castle_rights
          | .Black =>
            if mov.from_ = INITIAL_POSITIONS.BLACK_ROOKS.1 then
              CastleRights.mk g.castle_rights.white (false, g.castle_rights.black.2)
            else if mov.from_ = INITIAL_POSITIONS.BLACK_ROOKS.2 then
              CastleRights.mk g.castle_rights.white (g.castle_rights.black.1, false)
            else g.castle_rights
        else g.castle_rights
      let ply :=
        match move_data.typ with
        | .Move =>
          if move_data.piece = .Pawn then 0 else g.last_active_ply + 1
        | .Capture => 0
        | .Promotion _ => 0
        | .CapturePromotion _ => 0
        | .Castle _ => g.last_active_ply + 1
      (none,
        { g with
          board := b2
          king_positions := kp
          castle_rights := cr
          last_active_ply := ply
          turn := g.turn.getOpposite })

/-- game.rs `Game::player_move`. The argument models the result of
`move_input::get_player_move` (terminal read + parse), whose failure is
propagated by `?` before any state is touched; the pair is the echoed
input text and the parsed move. Returns the diagnostic (if any) together
with the state the method leaves behind. -/
def playerMove (inputRes : Except String (String × PlayerMove)) (g : Game) :
    Option String × Game :=
  match inputRes with
  | .error e => (some e, g)
  | .ok (input, move_data) =>
    match validateMove input move_data g with
    | .error e => (some e, g)
    | .ok _ =>
      match move_data.typ with
      | .Castle dir => (none, castleCommit dir g)
      | _ => normalCommit input move_data g

/-- game.rs `DrawType`. -/
inductive DrawType where
  | Repetition
  | Stalemate
  | Material
  | FiftyMove
deriving DecidableEq

/-- game.rs `GameResult`. -/
inductive GameResult where
  | Win (side : Side)
  | Draw (typ : DrawType)
  | None
deriving DecidableEq

/-- game.rs `Game::get_game_result`: the fifty-move test, then the double
loop over all squares accumulating per-side filtered move counts — the
filter is keyed to `self.turn` and `self.turn`'s king for BOTH sides'
pieces, exactly as in the source — threading the probe board, then the
decision ladder that tests `white_moves == 0` first. -/
def getGameResult (g : Game) : GameResult :=
  if g.last_active_ply = 100 then .Draw .FiftyMove
  else
    let kp := g.king_positions.getPos g.turn
    let res : Nat × Nat × Board :=
      rcRange.foldl (fun acc r =>
        rcRange.foldl (fun acc c =>
          match acc.2.2 r c with
          | .Full piece =>
            let possible :=
              (getMoves piece r c { g with board := acc.2.2 }).map
                (fun point => Move.mk ⟨r, c⟩ point)
            let fl := filterLegalMoves g.turn possible acc.2.2 kp
            let count := fl.1.length
            match piece.side with
            | .White => (acc.1 + count, acc.2.1, fl.2)
            | .Black => (acc.1, acc.2.1 + count, fl.2)
          | .Empty => acc) acc) (0, 0, g.board)
    let white_moves := res.1
    let black_moves := res.2.1
    let bfin := res.2.2
    if white_moves = 0 then
      if inCheck .White (g.king_positions.getPos .White) bfin then .Win .Black
      else .Draw .Stalemate
    else if black_moves = 0 then
      if inCheck .Black (g.king_positions.getPos .Black) bfin then .Win .White
      else .Draw .Stalemate
    else .None

/-- The legal-move count of the side to move, as the terminal evaluator
accumulates it for that side's pieces (game.rs lines 206-228 restricted to
`piece.side == self.turn`): every own piece's pseudo-legal destinations,
legality-filtered and summed. Castling is not included, as in the source. -/
def sideToMoveLegalMoves (g : Game) : Nat :=
  rcRange.foldl (fun n r =>
    rcRange.foldl (fun n c =>
      match g.board r c with
      | .Full piece =>
        if piece.side = g.turn then
          n + (filterLegalMoves g.turn
                ((getMoves piece r c g).map (fun point => Move.mk ⟨r, c⟩ point))
                g.board (g.king_positions.getPos g.turn)).1.length
        else n
      | .Empty => n) n) 0

/-- zobrist.rs `PIECE_TYPES`. -/
def PIECE_TYPES : Nat := 12

/-- zobrist.rs `ZOBRIST_SEED`: the fixed compile-time seed handed to
`ChaCha8Rng::seed_from_u64` by `Zobrist::new`. -/
def ZOBRIST_SEED : Nat := 37811

/-- zobrist.rs `Zobrist`: the drawn 64-bit values, addressed as in the
source (`piece_table[index][row][col]`, `en_passant[col]`). -/
structure Zobrist where
  piece_table : Nat → Int → Int → Nat
  black_turn : Nat
  white_castle_rights : Nat × Nat
  black_castle_rights : Nat × Nat
  en_passant : Int → Nat

/-- zobrist.rs `Zobrist::new`. The external `ChaCha8Rng` is a pure
deterministic generator of the fixed seed `ZOBRIST_SEED`; it is modelled
as the stream `rand` of its successive `next_u64` outputs, consumed here
at exactly the source's draw indices: 12*64 piece draws first, then the 8
en-passant files, then black-to-move, then the four castle rights. Every
construction in the program uses the same constant seed and hence the
same stream. -/
def Zobrist.new (rand : Nat → Nat) : Zobrist where
  piece_table := fun p r c => rand (p * 64 + r.toNat * 8 + c.toNat)
  black_turn := rand 776
  white_castle_rights := (rand 777, rand 778)
  black_castle_rights := (rand 779, rand 780)
  en_passant := fun c => rand (768 + c.toNat)

/-- zobrist.rs `Zobrist::get_piece_key`. -/
def Zobrist.getPieceKey (z : Zobrist) (piece : Piece) (square : Point) : Nat :=
  let index : Nat := match piece.side with
    | .White => 0
    | .Black => 6
  let index := index + match piece.typ with
    | .Pawn => 0
    | .Knight => 1
    | .Bishop => 2
    | .Rook => 3
    | .Queen => 4
    | .King => 5
  z.piece_table index square.r square.c

/-- The key computation of zobrist.rs `ZobristTable::new` (the only state
of the fresh table besides an empty map): side-to-move key, XOR of the
piece key of every occupied square, the en-passant file key when the
tracked double-stepped pawn is actually capturable (adjacent enemy pawn
with an empty landing square, tested left neighbour first), and one key
per held castle right. -/
def zobristKey (rand : Nat → Nat) (side : Side) (board : Board)
    (castle_rights : CastleRights) (pawn_double_moved : Option Point) : Nat :=
  let zobrist := Zobrist.new rand
  let k0 : Nat := match side with
    | .White => 0
    | .Black => zobrist.black_turn
  let k1 := rcRange.foldl (fun k r =>
    rcRange.foldl (fun k c =>
      match board r c with
      | .Full piece => Nat.xor k (zobrist.getPieceKey piece ⟨r, c⟩)
      | .Empty => k) k) k0
  let en_passant : Option Int :=
    match pawn_double_moved with
    | some point =>
      let e1 : Option Int :=
        if point.c > 0 then
          match board point.r (point.c - 1) with
          | .Full piece =>
            if piece.typ = .Pawn ∧
               ((piece.side = .White ∧ board (point.r + 1) point.c = .Empty) ∨
                (piece.side = .Black ∧ board (point.r - 1) point.c = .Empty)) then
              some point.c
            else none
          | .Empty => none
        else none
      if e1 = none ∧ point.c < SIZE - 1 then
        match board point.r (point.c + 1) with
        | .Full piece =>
          if piece.typ = .Pawn ∧
             ((piece.side = .White ∧ board (point.r + 1) point.c = .Empty) ∨
              (piece.side = .Black ∧ board (point.r - 1) point.c = .Empty)) then
            some point.c
          else none
        | .Empty => none
      else e1
    | none => none
  let k2 := match en_passant with
    | some col => Nat.xor k1 (zobrist.en_passant col)
    | none => k1
  let k3 := if castle_rights.white.1 then Nat.xor k2 zobrist.white_castle_rights.1 else k2
  let k4 := if castle_rights.white.2 then Nat.xor k3 zobrist.white_castle_rights.2 else k3
  let k5 := if castle_rights.black.1 then Nat.xor k4 zobrist.black_castle_rights.1 else k4
  let k6 := if castle_rights.black.2 then Nat.xor k5 zobrist.black_castle_rights.2 else k5
  k6

/-! ## Concrete fixtures -/

/-- Driver committing a sequence of already-parsed player moves through
`playerMove`, stopping at the first error: a state it reaches with first
component `none` is reachable by committed moves from its start state. -/
def commitAll : List (String × PlayerMove) → Game → Option String × Game
  | [], g => (none, g)
  | m :: rest, g =>
    match playerMove (.ok m) g with
    | (none, g1) => commitAll rest g1
    | (some e, g1) => (some e, g1)

/-- Position for C2: Black to move, checkmated by the rook e8 and bishop
f6 (a double check), own pawn h7 blocking the last flight square; White
king tucked on a1. -/
def c2Board : Board := fun r c =>
  if r = 0 ∧ c = 0 then Square.full .White .King
  else if r = 7 ∧ c = 4 then Square.full .White .Rook
  else if r = 5 ∧ c = 5 then Square.full .White .Bishop
  else if r = 7 ∧ c = 7 then Square.full .Black .King
  else if r = 6 ∧ c = 7 then Square.full .Black .Pawn
  else .Empty

/-- Game state around `c2Board`. -/
def c2Game : Game where
  turn := .Black
  board := c2Board
  king_positions := ⟨⟨0, 0⟩, ⟨7, 7⟩⟩
  castle_rights := ⟨(false, false), (false, false)⟩
  pawn_double_moved := none
  last_active_ply := 10

/-- Move sequence for C3: White only pushes pawns (keeping both castle
rights), Black runs the light-squared bishop to h1 and captures the h1
rook on its home corner. -/
def c3Moves : List (String × PlayerMove) :=
  [("g3", ⟨.Pawn, .Column 6, ⟨2, 6⟩, .Move⟩),
   ("d5", ⟨.Pawn, .Column 3, ⟨4, 3⟩, .Move⟩),
   ("a3", ⟨.Pawn, .Column 0, ⟨2, 0⟩, .Move⟩),
   ("Bh3", ⟨.Bishop, .Any, ⟨2, 7⟩, .Move⟩),
   ("a4", ⟨.Pawn, .Column 0, ⟨3, 0⟩, .Move⟩),
   ("Bg2", ⟨.Bishop, .Any, ⟨1, 6⟩, .Move⟩),
   ("b3", ⟨.Pawn, .Column 1, ⟨2, 1⟩, .Move⟩),
   ("Bxh1", ⟨.Bishop, .Any, ⟨0, 7⟩, .Capture⟩)]

/-- Move sequence for C4: after 1. e4 a6 2. e5 d5, Black's d-pawn has just
double-stepped next to White's e5 pawn. -/
def c4Moves : List (String × PlayerMove) :=
  [("e4", ⟨.Pawn, .Column 4, ⟨3, 4⟩, .Move⟩),
   ("a6", ⟨.Pawn, .Column 0, ⟨5, 0⟩, .Move⟩),
   ("e5", ⟨.Pawn, .Column 4, ⟨4, 4⟩, .Move⟩),
   ("d5", ⟨.Pawn, .Column 3, ⟨4, 3⟩, .Move⟩)]

/-- The parsed double-step `e4` from the start position. -/
def c4Input : Except String (String × PlayerMove) :=
  .ok ("e4", ⟨.Pawn, .Column 4, ⟨3, 4⟩, .Move⟩)

/-- Move sequence for C5: 1. Nf3 a6 2. e3 a5 3. Be2 a4 clears f1 and g1
for White while Black only pushes the a-pawn; the last ply (a pawn move)
resets the half-move clock to 0. -/
def c5Moves : List (String × PlayerMove) :=
  [("Nf3", ⟨.Knight, .Any, ⟨2, 5⟩, .Move⟩),
   ("a6", ⟨.Pawn, .Column 0, ⟨5, 0⟩, .Move⟩),
   ("e3", ⟨.Pawn, .Column 4, ⟨2, 4⟩, .Move⟩),
   ("a5", ⟨.Pawn, .Column 0, ⟨4, 0⟩, .Move⟩),
   ("Be2", ⟨.Bishop, .Any, ⟨1, 4⟩, .Move⟩),
   ("a4", ⟨.Pawn, .Column 0, ⟨3, 0⟩, .Move⟩)]

/-- The parsed kingside castle `O-O` (the `to` field of the parse is the
unused `Point(0, 0)`). -/
def c5CastleInput : Except String (String × PlayerMove) :=
  .ok ("O-O", ⟨.King, .Any, ⟨0, 0⟩, .Castle .H⟩)

/-- Position for C6: White king a1, enemy rook a8 with the whole a-file
between them empty; the rook attacks a1 along the file. -/
def c6Board : Board := fun r c =>
  if r = 0 ∧ c = 0 then Square.full .White .King
  else if r = 7 ∧ c = 0 then Square.full .Black .Rook
  else if r = 7 ∧ c = 7 then Square.full .Black .King
  else .Empty

/-- Position for C7: White ready to castle a-side except that b1 holds a
knight (and a1 its rook); c1, d1 empty, nothing attacks the king path. -/
def c7Board : Board := fun r c =>
  if r = 0 ∧ c = 0 then Square.full .White .Rook
  else if r = 0 ∧ c = 1 then Square.full .White .Knight
  else if r = 0 ∧ c = 4 then Square.full .White .King
  else if r = 7 ∧ c = 4 then Square.full .Black .King
  else .Empty

/-- Position for C8: Black pawn e4, White pawn f4 recorded as the tracked
double-stepped pawn, f3 (the en-passant destination) empty. -/
def c8Board : Board := fun r c =>
  if r = 3 ∧ c = 4 then Square.full .Black .Pawn
  else if r = 3 ∧ c = 5 then Square.full .White .Pawn
  else if r = 0 ∧ c = 4 then Square.full .White .King
  else if r = 7 ∧ c = 4 then Square.full .Black .King
  else .Empty

/-- The request modelling the parsed input `e2` for White from the start
position: a quiet pawn move onto the occupied square e2, which
`validate_move` rejects. -/
def c10Input : Except String (String × PlayerMove) :=
  .ok ("e2", ⟨.Pawn, .Column 4, ⟨1, 4⟩, .Move⟩)

/-! ## Helper lemmas (shared) -/

/-- The make/unmake probe of one candidate hands back exactly the board it
was given. -/
theorem probeStep_board (side : Side) (kingPos : Point) (board : Board) (mov : Move) :
    (probeStep side kingPos board mov).2 = board := by
  funext r c
  by_cases hto : r = mov.to_.r ∧ c = mov.to_.c <;>
    by_cases hfr : r = mov.from_.r ∧ c = mov.from_.c <;>
      simp_all [probeStep, Board.set]
  · rw [if_neg (fun h => hto h.1 h.2), if_neg (fun h => hto h.1.symm h.2.symm)]
  · rw [if_neg (fun h => hto h.1 h.2), if_neg (fun h => hfr h.1 h.2)]

/-- Threading the probe board through a whole candidate list is the
identity on the board component. -/
theorem filterLegalMovesAux_board (side : Side) (kingPos : Point) :
    ∀ (l : List Move) (acc : List Move × Board),
      (filterLegalMovesAux side kingPos l acc).2 = acc.2 := by
  intro l
  induction l with
  | nil => intro acc; rfl
  | cons mov rest ih =>
    intro acc
    simp only [filterLegalMovesAux]
    rw [ih]
    exact probeStep_board side kingPos acc.2 mov

/-- moves.rs `filter_legal_moves` returns the board it received. -/
theorem filterLegalMoves_board (side : Side) (possible : List Move) (board : Board)
    (kingPos : Point) : (filterLegalMoves side possible board kingPos).2 = board :=
  filterLegalMovesAux_board side kingPos possible ([], board)

/-- On every path of game.rs `player_move`, either the call succeeds or it
leaves the game state exactly as it found it. -/
theorem normalCommit_cases (input : String) (move_data : PlayerMove) (g : Game) :
    (normalCommit input move_data g).1 = none ∨ (normalCommit input move_data g).2 = g := by
  simp only [normalCommit]
  split
  · exact Or.inr rfl
  · rw [filterLegalMoves_board]
    rcases (filterLegalMoves g.turn (getPossibleMoves move_data g) g.board
        (g.king_positions.getPos g.turn)).1 with _ | ⟨m, _ | ⟨m2, rest⟩⟩
    · exact Or.inr rfl
    · exact Or.inl rfl
    · exact Or.inr rfl

/-- Case split over game.rs `player_move`: success, or state preserved. -/
theorem playerMove_cases (inputRes : Except String (String × PlayerMove)) (g : Game) :
    (playerMove inputRes g).1 = none ∨ (playerMove inputRes g).2 = g := by
  unfold playerMove
  split
  · right; rfl
  · split
    · right; rfl
    · split
      all_goals first
        | exact Or.inl rfl
        | exact normalCommit_cases _ _ _

/-! ## C1 -/

/-- C1: for every board, side, candidate list and king square, after
`filter_legal_moves` has decided a candidate — whether it accepts or
rejects it (`probeStep` covers both outcomes of a single probe, and the
full filter threads those probes) — every square of the board equals its
value from before that candidate was probed. -/
theorem c1_probe_restores_board (side : Side) (possible : List Move)
    (board : Board) (kingPos : Point) (mov : Move) (r c : Int) :
    (probeStep side kingPos board mov).2 r c = board r c ∧
    (filterLegalMoves side possible board kingPos).2 r c = board r c :=
  ⟨congrFun (congrFun (probeStep_board side kingPos board mov) r) c,
   congrFun (congrFun (filterLegalMoves_board side possible board kingPos) r) c⟩

/-! ## C10 -/

/-- C10: whenever the move-commit operation reports an error — unreadable
or unparsable input, failed validation, zero matching legal moves, or an
ambiguous match — the entire game state (board, turn, king positions,
castle rights, double-step slot, half-move clock) is unchanged. -/
theorem c10_error_leaves_state_unchanged (inputRes : Except String (String × PlayerMove))
    (g : Game) (e : String) (h : (playerMove inputRes g).1 = some e) :
    (playerMove inputRes g).2 = g := by
  rcases playerMove_cases inputRes g with h0 | h0
  · rw [h0] at h
    exact Option.noConfusion h
  · exact h0

/-- Witness for C10 at a concrete input: the probe request fails
validation and the state is returned untouched. -/
theorem c10_witness :
    (playerMove c10Input Game.new).1 = some "e2 is not a valid move, please try again" ∧
    (playerMove c10Input Game.new).2 = Game.new :=
  ⟨by decide, c10_error_leaves_state_unchanged c10Input Game.new
    "e2 is not a valid move, please try again" (by decide)⟩

/-! ## C6 -/

/-- C6 (divergence): the a-file between the kings is empty up to the
enemy rook on a8 — the first occupied square of the upward orthogonal ray
from a1 holds an enemy rook — yet `in_check` reports no attack, because
its ray loops require the scanned column to be strictly positive and so
never see column 0. -/
theorem c6_column_zero_attack_missed :
    (∀ i ∈ ([1, 2, 3, 4, 5, 6] : List Int), c6Board i 0 = Square.Empty) ∧
    c6Board 7 0 = Square.full .Black .Rook ∧
    inCheck .White ⟨0, 0⟩ c6Board = false := by decide

/-! ## C8 -/

/-- C8 (divergence): Black pawn e4 with the tracked double-stepped White
pawn adjacent on its right at f4 and the en-passant destination f3 empty:
`get_pawn_moves` omits the en-passant destination (2,5) and instead emits
the off-board-logic square (4,3), a backward diagonal. -/
theorem c8_en_passant_wrong_square :
    getPawnMoves .Black 3 4 c8Board (some ⟨3, 5⟩) = [⟨2, 4⟩, ⟨4, 3⟩] ∧
    Point.mk 2 5 ∉ getPawnMoves .Black 3 4 c8Board (some ⟨3, 5⟩) ∧
    c8Board 2 5 = Square.Empty ∧
    c8Board 3 5 = Square.full .White .Pawn := by decide

/-! ## C4 -/

/-- C4 (divergence): committing the double-step 1. e4 succeeds but leaves
the double-step slot `none` (the mutator never writes
`pawn_double_moved`), and after 1. e4 a6 2. e5 d5 — Black's d-pawn having
just double-stepped adjacent to White's e5 pawn — White's pawn has no
en-passant move to d6 on the immediately following ply. -/
theorem c4_double_step_slot_never_set :
    (playerMove c4Input Game.new).1 = none ∧
    (playerMove c4Input Game.new).2.pawn_double_moved = none ∧
    (commitAll c4Moves Game.new).1 = none ∧
    (commitAll c4Moves Game.new).2.pawn_double_moved = none ∧
    Point.mk 5 3 ∉
      getPawnMoves .White 4 4 (commitAll c4Moves Game.new).2.board
        (commitAll c4Moves Game.new).2.pawn_double_moved := by decide

/-! ## C5 -/

/-- C5 (divergence): after the six quiet plies of `c5Moves` the half-move
clock is 0 and White may castle kingside; committing `O-O` succeeds but
leaves the clock at 0 instead of incrementing it to 1 — the castle branch
of `player_move` returns before the clock update it shares with the other
move kinds. -/
theorem c5_castle_skips_clock_update :
    (commitAll c5Moves Game.new).1 = none ∧
    (commitAll c5Moves Game.new).2.last_active_ply = 0 ∧
    (playerMove c5CastleInput (commitAll c5Moves Game.new).2).1 = none ∧
    (playerMove c5CastleInput (commitAll c5Moves Game.new).2).2.last_active_ply = 0 := by
  decide

/-! ## C3 -/

/-- C3 (divergence): in the state reached from the initial position by the
eight committed plies of `c3Moves`, White's h-rook has been captured on
its home corner h1 (a black bishop now stands there), yet White's h-side
castle right is still `true` — a capture on the rook's home square does
not revoke the right. -/
theorem c3_captured_rook_keeps_right :
    (commitAll c3Moves Game.new).1 = none ∧
    (commitAll c3Moves Game.new).2.board 0 7 = Square.full .Black .Bishop ∧
    (commitAll c3Moves Game.new).2.castle_rights.white.2 = true := by decide

/-! ## C2 -/

set_option maxRecDepth 10000 in
/-- C2 (divergence): in `c2Game` the fifty-move clock is not 100, Black is
to move with zero legal non-castle moves and a king the detector reports
as attacked, yet `get_game_result` returns Draw(Stalemate) instead of
Win(White): the evaluator tests `white_moves == 0` first, and White's
counts are computed with the legality filter keyed to Black, which
discards every White move of this double-check position. -/
theorem c2_checkmate_reported_as_stalemate :
    c2Game.last_active_ply ≠ 100 ∧ c2Game.turn = .Black ∧
    sideToMoveLegalMoves c2Game = 0 ∧
    inCheck .Black (c2Game.king_positions.getPos .Black) c2Game.board = true ∧
    getGameResult c2Game = .Draw .Stalemate := by decide

/-! ## C7 -/

/-- C7 (counterexample): with b1 occupied (and a1 holding its rook) but
c1, d1 free and the king path unattacked, `can_castle` accepts the a-side
castle: occupancy of columns 0 and 1 — inside the claim's closed span
from the king's column through the rook's home column — does not block. -/
theorem c7_b_file_does_not_block :
    c7Board 0 1 ≠ Square.Empty ∧ c7Board 0 0 ≠ Square.Empty ∧
    canCastle .White .A c7Board ⟨0, 4⟩ = true := by decide

/-- C7 (amended): `can_castle` returns true iff, over the columns of
`CASTLE_COLUMNS` for the direction (a-side: 2, 3, 4; h-side: 4, 5, 6),
every column other than the king's own is unoccupied and no examined
column's square is reported attacked; columns 0 and 1 (a-side) and 7
(h-side) are never examined for occupancy. -/
theorem c7_castle_columns_characterization (side : Side) (dir : CastleDirection)
    (board : Board) (kingPos : Point) :
    canCastle side dir board kingPos = true ↔
      ∀ col ∈ (match dir with
        | CastleDirection.A => CASTLE_COLUMNS.1
        | CastleDirection.H => CASTLE_COLUMNS.2),
        (col ≠ kingPos.c → board kingPos.r col = .Empty) ∧
        inCheck side ⟨kingPos.r, col⟩ board = false := by
  have hbody : ∀ col : Int,
      (((if col ≠ kingPos.c then
          match board kingPos.r col with
          | .Full _ => false
          | .Empty => true
        else true) && ! inCheck side ⟨kingPos.r, col⟩ board) = true) ↔
      ((col ≠ kingPos.c → board kingPos.r col = .Empty) ∧
        inCheck side ⟨kingPos.r, col⟩ board = false) := by
    intro col
    by_cases hc : col = kingPos.c
    · simp [hc]
    · rcases hb : board kingPos.r col with piece | _
      · simp [hc, hb]
      · simp [hc, hb]
  cases dir <;>
    simpa only [canCastle, List.all_eq_true] using
      ⟨fun h col hcol => (hbody col).mp (h col hcol),
       fun h col hcol => (hbody col).mpr (h col hcol)⟩

/-! ## C9 -/

/-- C9: two Zobrist table constructions over the same deterministic
random stream — as in the source, where every construction reseeds
`ChaCha8Rng` with the fixed `ZOBRIST_SEED` — produce equal keys whenever
their board contents, side to move, castle rights and double-stepped-pawn
slots agree. -/
theorem c9_zobrist_key_deterministic (rand : Nat → Nat) (s1 s2 : Side)
    (b1 b2 : Board) (cr1 cr2 : CastleRights) (p1 p2 : Option Point)
    (hs : s1 = s2) (hb : ∀ r c, b1 r c = b2 r c) (hc : cr1 = cr2) (hp : p1 = p2) :
    zobristKey rand s1 b1 cr1 p1 = zobristKey rand s2 b2 cr2 p2 := by
  subst hs
  subst hc
  subst hp
  have hbb : b1 = b2 := funext fun r => funext fun c => hb r c
  rw [hbb]

/-- Witness for C9 at concrete inputs: the starting position hashed twice
over one stream. -/
theorem c9_witness :
    zobristKey (fun i => i * i + 1) .White initialBoard ⟨(true, true), (true, true)⟩ none =
    zobristKey (fun i => i * i + 1) .White initialBoard ⟨(true, true), (true, true)⟩ none :=
  c9_zobrist_key_deterministic (fun i => i * i + 1) .White .White
    initialBoard initialBoard ⟨(true, true), (true, true)⟩ ⟨(true, true), (true, true)⟩
    none none rfl (fun _ _ => rfl) rfl rfl

end BadChess
